import Mathlib

/-!
Verification development for `floris/simulation/pressure_projection.py`.

The module defines a single class `PressureField` that, given a modeled
(predictor) velocity field on a uniform structured grid, assembles a
seven-banded discrete Laplacian, computes the finite-difference divergence
of the predictor as the right-hand side of a pressure Poisson equation,
solves the sparse linear system by conjugate gradients, and corrects the
velocity field by the pressure gradient.  Scalar field arithmetic is
embedded over `ℚ` (exact arithmetic in place of IEEE floats); 3-D numpy
arrays become total functions `ℕ → ℕ → ℕ → ℚ` together with explicit
shape data, and fallible Python code becomes `Except`-valued functions.
-/

set_option maxHeartbeats 1600000

namespace PressureProjection

/-- A 3-D scalar field: explicit shape plus values (a numpy `ndarray` of
shape `(nx, ny, nz)`). -/
structure Field3 where
  nx : ℕ
  ny : ℕ
  nz : ℕ
  val : ℕ → ℕ → ℕ → ℚ

/-- Grid metadata stored by `PressureField.__init__`: the axis sizes
`Nx, Ny, Nz` and the scalar spacings `dx, dy, dz`. -/
structure Grid where
  Nx : ℕ
  Ny : ℕ
  Nz : ℕ
  dx : ℚ
  dy : ℚ
  dz : ℚ

/-- Total number of nodes, `self.N = self.Nx * self.Ny * self.Nz`. -/
def Grid.N (g : Grid) : ℕ := g.Nx * g.Ny * g.Nz

/-- Offset of the x-direction off-diagonal band, `offx = self.Ny*self.Nz`. -/
def Grid.offx (g : Grid) : ℕ := g.Ny * g.Nz

/-- Main-diagonal value, `-2/dx**2 - 2/dy**2 - 2/dz**2` (the same at every
node; the source builds it as a constant vector of length `N`). -/
def Grid.diagVal (g : Grid) : ℚ := -2/g.dx^2 - 2/g.dy^2 - 2/g.dz^2

/-- The x-band array `offdiagx = ones[:-offx]/dx**2`: constant, with no
interior correction (truncation happens only through its length). -/
def Grid.offdiagx (g : Grid) : ℚ := 1/g.dx^2

/-- One step of the y-band correction loop: the in-place slice update
`offdiagy[i-offy:i] -= 1./dy**2` as a function update. -/
def applySlice (off : ℕ) (c : ℚ) (f : ℕ → ℚ) (i : ℕ) : ℕ → ℚ :=
  fun j => if i - off ≤ j ∧ j < i then f j - c else f j

/-- Index list of the y-band correction loop,
`range(offx, len(offdiagy), offx)` with `len(offdiagy) = N - Nz`. -/
def Grid.loopIdxs (g : Grid) : List ℕ :=
  List.range' g.offx ((g.N - g.Nz - 1) / g.offx) g.offx

/-- The y-band array: `offdiagy = ones[:-offy]/dy**2` followed by the
wraparound-removal loop `for i in range(offx, len(offdiagy), offx):
offdiagy[i-offy:i] -= 1./dy**2` (meaningful on indices `< N - Nz`). -/
def Grid.offdiagy (g : Grid) : ℕ → ℚ :=
  g.loopIdxs.foldl (applySlice g.Nz (1/g.dy^2)) (fun _ => 1/g.dy^2)

/-- The z-band array: `offdiagz = ones[:-1]/dz**2` followed by the strided
slice update `offdiagz[Nz-1::Nz] -= 1./dz**2` (meaningful on indices
`< N - 1`). -/
def Grid.offdiagz (g : Grid) : ℕ → ℚ :=
  fun j =>
    if g.Nz - 1 ≤ j ∧ (j - (g.Nz - 1)) % g.Nz = 0 then 1/g.dz^2 - 1/g.dz^2
    else 1/g.dz^2

/-- Entry `(i, j)` of the matrix assembled by `_setup_LHS` via
`scipy.sparse.diags([offdiagx, offdiagy, offdiagz, diag, offdiagz,
offdiagy, offdiagx], [-offx, -offy, -offz, 0, offz, offy, offx])`: a band
at offset `k > 0` puts array element `t` at position `(t, t+k)` for
`t < N - k`, a band at `-k` puts it at `(t+k, t)`. -/
def Grid.LHS (g : Grid) (i j : ℕ) : ℚ :=
  (if j = i + g.offx ∧ j < g.N then g.offdiagx else 0)
  + (if i = j + g.offx ∧ i < g.N then g.offdiagx else 0)
  + (if j = i + g.Nz ∧ j < g.N then g.offdiagy i else 0)
  + (if i = j + g.Nz ∧ i < g.N then g.offdiagy j else 0)
  + (if j = i + 1 ∧ j < g.N then g.offdiagz i else 0)
  + (if i = j + 1 ∧ i < g.N then g.offdiagz j else 0)
  + (if i = j ∧ i < g.N then g.diagVal else 0)

/-- The operator as the specification describes it (C2): main diagonal
`-2/dx² - 2/dy² - 2/dz²`; symmetric bands at `±(Ny·Nz)`, `±Nz`, `±1`
holding `1/dx²`, `1/dy²`, `1/dz²`, except that the `±Nz` band is zeroed on
the last `Nz` positions of every block of `Ny·Nz` entries and the `±1`
band is zeroed at every `Nz`-th position; the `±(Ny·Nz)` band is only
truncated at its ends. -/
def Grid.LHSspec (g : Grid) (i j : ℕ) : ℚ :=
  if i = j then g.diagVal
  else if j = i + g.offx ∨ i = j + g.offx then 1/g.dx^2
  else if j = i + g.Nz ∨ i = j + g.Nz then
    (if g.offx - g.Nz ≤ (min i j) % g.offx then 0 else 1/g.dy^2)
  else if j = i + 1 ∨ i = j + 1 then
    (if (min i j) % g.Nz = g.Nz - 1 then 0 else 1/g.dz^2)
  else 0

/-! ### Divergence (`_calc_gradients`, `_set_RHS`, `update_RHS`) -/

/-- The x-derivative array of `_calc_gradients`: forward difference at the
inlet (`du0_dx[0] = (u[1]-u[0])/dx`), backward at the outlet
(`du0_dx[-1] = (u[-1]-u[-2])/dx`), second-order central difference on the
interior (`du0_dx[1:-1] = (u[2:]-u[:-2])/(2*dx)`).  `nx` is the extent of
the differencing axis (taken from `self.u0.shape`). -/
def du_dx (nx : ℕ) (dx : ℚ) (u : ℕ → ℕ → ℕ → ℚ) : ℕ → ℕ → ℕ → ℚ :=
  fun i j k =>
    if i = 0 then (u 1 j k - u 0 j k) / dx
    else if i = nx - 1 then (u (nx - 1) j k - u (nx - 2) j k) / dx
    else (u (i + 1) j k - u (i - 1) j k) / (2 * dx)

/-- The y-derivative array of `_calc_gradients` (same stencil along `j`). -/
def dv_dy (ny : ℕ) (dy : ℚ) (v : ℕ → ℕ → ℕ → ℚ) : ℕ → ℕ → ℕ → ℚ :=
  fun i j k =>
    if j = 0 then (v i 1 k - v i 0 k) / dy
    else if j = ny - 1 then (v i (ny - 1) k - v i (ny - 2) k) / dy
    else (v i (j + 1) k - v i (j - 1) k) / (2 * dy)

/-- The z-derivative array of `_calc_gradients` (same stencil along `k`). -/
def dw_dz (nz : ℕ) (dz : ℚ) (w : ℕ → ℕ → ℕ → ℚ) : ℕ → ℕ → ℕ → ℚ :=
  fun i j k =>
    if k = 0 then (w i j 1 - w i j 0) / dz
    else if k = nz - 1 then (w i j (nz - 1) - w i j (nz - 2)) / dz
    else (w i j (k + 1) - w i j (k - 1)) / (2 * dz)

/-- `_set_RHS` before flattening: `div = du_dx + dv_dy + dw_dz`. -/
def divergenceField (nx ny nz : ℕ) (dx dy dz : ℚ)
    (u v w : ℕ → ℕ → ℕ → ℚ) : ℕ → ℕ → ℕ → ℚ :=
  fun i j k =>
    du_dx nx dx u i j k + dv_dy ny dy v i j k + dw_dz nz dz w i j k

/-- Row-major flattening of a 3-D array of shape `(nx, ny, nz)`
(`numpy.ravel` with C order: x slowest, z fastest). -/
def ravel (ny nz : ℕ) (f : ℕ → ℕ → ℕ → ℚ) : ℕ → ℚ :=
  fun n => f (n / (ny * nz)) ((n / nz) % ny) (n % nz)

/-- The inverse reshape `soln[0].reshape(self.u0.shape)`. -/
def reshape3 (ny nz : ℕ) (vec : ℕ → ℚ) : ℕ → ℕ → ℕ → ℚ :=
  fun i j k => vec (i * (ny * nz) + j * nz + k)

/-- `update_RHS` composed with `_set_RHS`: the flattened divergence of the
stored predictor fields, `self.RHS = div.ravel()` (unscaled by `A`). -/
def updateRHSvec (nx ny nz : ℕ) (dx dy dz : ℚ)
    (u v w : ℕ → ℕ → ℕ → ℚ) : ℕ → ℚ :=
  ravel ny nz (divergenceField nx ny nz dx dy dz u v w)

/-! ### Field correction (`_correct_fields`) -/

/-- `self.u = self.u0.copy(); self.u[1:-1,:,:] -= A*dp_dx` with
`dp_dx = (p[2:,:,:] - p[:-2,:,:])/(2*dx)`. -/
def correctU (nx : ℕ) (dx A : ℚ) (p u0 : ℕ → ℕ → ℕ → ℚ) :
    ℕ → ℕ → ℕ → ℚ :=
  fun i j k =>
    if 1 ≤ i ∧ i < nx - 1 then
      u0 i j k - A * ((p (i + 1) j k - p (i - 1) j k) / (2 * dx))
    else u0 i j k

/-- `self.v = self.v0.copy(); self.v[:,1:-1,:] -= A*dp_dy`. -/
def correctV (ny : ℕ) (dy A : ℚ) (p v0 : ℕ → ℕ → ℕ → ℚ) :
    ℕ → ℕ → ℕ → ℚ :=
  fun i j k =>
    if 1 ≤ j ∧ j < ny - 1 then
      v0 i j k - A * ((p i (j + 1) k - p i (j - 1) k) / (2 * dy))
    else v0 i j k

/-- `self.w = self.w0.copy(); self.w[:,:,1:-1] -= A*dp_dz`. -/
def correctW (nz : ℕ) (dz A : ℚ) (p w0 : ℕ → ℕ → ℕ → ℚ) :
    ℕ → ℕ → ℕ → ℚ :=
  fun i j k =>
    if 1 ≤ k ∧ k < nz - 1 then
      w0 i j k - A * ((p i j (k + 1) - p i j (k - 1)) / (2 * dz))
    else w0 i j k

/-! ### Conjugate-gradient solver model -/

/-- Dot product of length-`n` vectors. -/
def dotv (n : ℕ) (a b : ℕ → ℚ) : ℚ :=
  (Finset.range n).sum (fun i => a i * b i)

/-- Squared Euclidean norm. -/
def normSq (n : ℕ) (a : ℕ → ℚ) : ℚ := dotv n a a

/-- Matrix-vector product for an `n × n` matrix given entrywise. -/
def matVec (n : ℕ) (M : ℕ → ℕ → ℚ) (x : ℕ → ℚ) : ℕ → ℚ :=
  fun i => (Finset.range n).sum (fun j => M i j * x j)

/-- Modelled from the spec: the convergence test of the external iterative
solver `scipy.sparse.linalg.cg` (not part of this repository), in exact
arithmetic — the residual norm must reach `max(tol*‖b‖, atol)`; both sides
are compared squared to stay inside `ℚ`. -/
def cgConverged (n : ℕ) (M : ℕ → ℕ → ℚ) (b x : ℕ → ℚ) (tol atol : ℚ) :
    Bool :=
  decide (normSq n (fun i => b i - matVec n M x i)
    ≤ max (tol ^ 2 * normSq n b) (atol ^ 2))

/-- Modelled from the spec: the iteration of the external conjugate
gradient solver (`scipy.sparse.linalg.cg`, not part of this repository),
fuel-bounded; returns the iterate and an info flag (`0` on convergence,
nonzero when the iteration budget runs out, as scipy reports). -/
def cgLoop (n : ℕ) (M : ℕ → ℕ → ℚ) (b : ℕ → ℚ) (tol atol : ℚ) :
    ℕ → (ℕ → ℚ) → (ℕ → ℚ) → (ℕ → ℚ) → ((ℕ → ℚ) × ℕ)
  | 0, x, _, _ => (x, 1)
  | fuel + 1, x, r, q =>
    if cgConverged n M b x tol atol then (x, 0)
    else
      let Mq := matVec n M q
      let rs := dotv n r r
      let alpha := rs / dotv n q Mq
      let x1 := fun i => x i + alpha * q i
      let r1 := fun i => r i - alpha * Mq i
      let beta := dotv n r1 r1 / rs
      cgLoop n M b tol atol fuel x1 r1 (fun i => r1 i + beta * q i)

/-- Modelled from the spec: `scipy.sparse.linalg.cg(M, b, x0, tol, atol)`
(external to this repository) — initial convergence check on `x0`, then
the CG iteration with budget `maxiter`. -/
def cg (n : ℕ) (M : ℕ → ℕ → ℚ) (b x0 : ℕ → ℚ) (tol atol : ℚ)
    (maxiter : ℕ) : (ℕ → ℚ) × ℕ :=
  if cgConverged n M b x0 tol atol then (x0, 0)
  else
    let r0 := fun i => b i - matVec n M x0 i
    cgLoop n M b tol atol maxiter x0 r0 r0

/-! ### The `PressureField` instance state and methods -/

/-- Instance attributes of `PressureField` (diagnostic-only attributes of
the `DEBUG` block are excluded, as the spec scopes them out).  Attributes
that do not exist until `solve` has run are `Option`-valued; `__init__`
sets `self.RHS = None` explicitly. -/
structure PFState where
  g : Grid
  lhs : ℕ → ℕ → ℚ
  RHS : Option (ℕ → ℚ)
  u0 : Option Field3
  v0 : Option Field3
  w0 : Option Field3
  p : Option Field3
  u : Option Field3
  v : Option Field3
  w : Option Field3

/-- `np.diff` of a 1-D array: `d[i] = l[i+1] - l[i]`. -/
def npDiff (l : List ℚ) : List ℚ :=
  List.zipWith (fun a b => b - a) l l.tail

/-- One axis of the `__init__` spacing validation, exactly as written in
the source: `assert np.max(np.abs(d - d[0]) < 1e-8)` — the comparison is
applied elementwise *before* `np.max`, so the reduction is over booleans
(`np.max` of a boolean array is `True` iff some entry is `True`); on
success the scalar spacing `d[0]` is recorded.  An empty `d` (an axis with
fewer than two points) raises inside numpy. -/
def checkAxis (d : List ℚ) : Except String ℚ :=
  match d with
  | [] => .error "ValueError: zero-size array to reduction operation"
  | d0 :: rest =>
    if (d0 :: rest).any (fun v => decide (|v - d0| < 1/100000000))
    then .ok d0
    else .error "AssertionError"

/-- What the specification says the spacing validation does (C1): every
per-axis spacing deviates from the first by less than `1e-8`. -/
def uniformSpacingSpec (d : List ℚ) : Bool :=
  d.all (fun v => decide (|v - d.headD 0| < 1/100000000))

/-- `PressureField.__init__` on the three 1-D coordinate axes
(`x1 = x[:,0,0]` etc. of the meshgrid input): validates spacing of each
axis, records `Nx, Ny, Nz, dx, dy, dz`, assembles the operator once
(`_setup_LHS`), and sets `self.RHS = None`. -/
def pfInit (x1 y1 z1 : List ℚ) : Except String PFState :=
  match checkAxis (npDiff x1) with
  | .error e => .error e
  | .ok dx =>
    match checkAxis (npDiff y1) with
    | .error e => .error e
    | .ok dy =>
      match checkAxis (npDiff z1) with
      | .error e => .error e
      | .ok dz =>
        let grid : Grid :=
          { Nx := x1.length, Ny := y1.length, Nz := z1.length,
            dx := dx, dy := dy, dz := dz }
        .ok { g := grid, lhs := grid.LHS, RHS := none,
              u0 := none, v0 := none, w0 := none,
              p := none, u := none, v := none, w := none }

/-- Zero field of the same shape, `np.zeros(self.u0.shape)`. -/
def zerosLike (f : Field3) : Field3 :=
  { nx := f.nx, ny := f.ny, nz := f.nz, val := fun _ _ _ => 0 }

/-- First phase of `PressureField.solve` (with `v_wake=w_wake=None`),
up to and including `update_RHS`: stores the predictor fields
(`self.u0 = u_wake.copy()`, `self.v0 = np.zeros(self.u0.shape)`,
`self.w0 = ...`) and caches the flattened divergence in `self.RHS`.
The phase carries the method's fallible type but has no failure branch:
the source performs no validation of `u_wake` whatsoever — in particular
no comparison of its shape against the grid; every array operation here
is sized by `self.u0.shape`, i.e. by the supplied field's own shape. -/
def pfSolvePre (s : PFState) (u_wake : Field3) : Except String PFState :=
  let u0 := u_wake
  let v0 := zerosLike u_wake
  let w0 := zerosLike u_wake
  let rhs := updateRHSvec u0.nx u0.ny u0.nz s.g.dx s.g.dy s.g.dz
    u0.val v0.val w0.val
  .ok { s with
          u0 := some u0, v0 := some v0, w0 := some w0,
          RHS := some rhs }

/-- Second phase of `PressureField.solve`: conjugate-gradient solve of
`LHS · p = RHS / A` from a zero initial guess (`x0 = np.zeros((N,))`,
`atol = tol`, scipy's default iteration budget `10*N`), the success
assertion `assert (soln[1] == 0)`, the reshape of the solution to
`self.u0.shape`, and `_correct_fields(A)`. -/
def pfSolvePost (s : PFState) (A tol : ℚ) : Except String PFState :=
  match s.u0, s.v0, s.w0, s.RHS with
  | some u0, some v0, some w0, some rhs =>
    let soln := cg s.g.N s.lhs (fun i => rhs i / A) (fun _ => 0)
      tol tol (10 * s.g.N)
    if soln.2 = 0 then
      let pf : Field3 :=
        { nx := u0.nx, ny := u0.ny, nz := u0.nz,
          val := reshape3 u0.ny u0.nz soln.1 }
      .ok { s with
        p := some pf,
        u := some { u0 with val := correctU u0.nx s.g.dx A pf.val u0.val },
        v := some { v0 with val := correctV u0.ny s.g.dy A pf.val v0.val },
        w := some { w0 with val := correctW u0.nz s.g.dz A pf.val w0.val } }
    else .error "AssertionError: cg did not converge"
  | _, _, _, _ => .error "AttributeError"

/-- `PressureField.solve(u_wake, A=A, tol=tol)` with `v_wake=w_wake=None`
and no smoothing region. -/
def pfSolve (s : PFState) (u_wake : Field3) (A tol : ℚ) :
    Except String PFState := do
  let s1 ← pfSolvePre s u_wake
  pfSolvePost s1 A tol

/-- `PressureField.div(corrected)`: for `corrected=True`, the sum of
`_calc_gradients(self.u, self.v, self.w)` (freshly computed, allocated
with `self.u0.shape`); for `corrected=False`, the cached
`self.RHS.reshape(self.u0.shape)` — which raises when `self.RHS` is still
`None` (or `self.u0` is unset).  The method assigns no attribute, so the
state component of the result is the input state itself. -/
def pfDiv (s : PFState) (corrected : Bool) :
    PFState × Except String Field3 :=
  (s,
    if corrected then
      match s.u, s.v, s.w, s.u0 with
      | some uf, some vf, some wf, some u0 =>
        .ok { nx := u0.nx, ny := u0.ny, nz := u0.nz,
              val := divergenceField u0.nx u0.ny u0.nz
                s.g.dx s.g.dy s.g.dz uf.val vf.val wf.val }
      | _, _, _, _ => .error "AttributeError"
    else
      match s.RHS, s.u0 with
      | some rhs, some u0 =>
        .ok { nx := u0.nx, ny := u0.ny, nz := u0.nz,
              val := reshape3 u0.ny u0.nz rhs }
      | none, _ =>
        .error "AttributeError: NoneType object has no attribute reshape"
      | _, _ => .error "AttributeError")

/-! ### Local smoothing (`interp`) -/

/-- numpy index resolution for a (possibly negative) index into an axis of
length `n`: negative indices count from the end. -/
def npIdx (n : ℕ) (i : ℤ) : ℕ :=
  if i < 0 then ((n : ℤ) + i).toNat else i.toNat

/-- Tail of `np.argmin`: first index of the minimum (strict comparison
keeps the earlier index on ties). -/
def argminGo : List ℚ → ℚ → ℕ → ℕ → ℕ
  | [], _, _, best => best
  | a :: rest, bv, idx, best =>
    if a < bv then argminGo rest a (idx + 1) idx
    else argminGo rest bv (idx + 1) best

/-- `np.argmin` over a 1-D array (0 on an empty array never arises in the
source, which always passes a nonempty coordinate axis). -/
def argmin : List ℚ → ℕ
  | [] => 0
  | a :: rest => argminGo rest a 1 0

/-- Index selection of `interp`: `i0 = np.argmin(np.abs(turbx - x1))`,
then `if x1[i0] >= turbx: i0 -= 1` (the result may be `-1`). -/
def interpI0 (x1 : List ℚ) (turbx : ℚ) : ℤ :=
  let i0 := argmin (x1.map (fun v => |turbx - v|))
  if turbx ≤ x1.getD i0 0 then (i0 : ℤ) - 1 else (i0 : ℤ)

/-- Assignment of one whole x-slice of a 3-D array,
`u[widx,:] = rhs`. -/
def assignSlice (widx : ℕ) (rhs : ℕ → ℕ → ℚ) (u : ℕ → ℕ → ℕ → ℚ) :
    ℕ → ℕ → ℕ → ℚ :=
  fun i j k => if i = widx then rhs j k else u i j k

/-- The two sequential slice assignments of `interp`: `f0` and `f1` are
numpy *views* of slices `i0-1` and `i0+2`, so the second assignment reads
them from the array as left by the first assignment.  No bounds check is
performed; indices are resolved by numpy semantics (negative indices wrap
from the end). -/
def interpPatch (nx : ℕ) (u : ℕ → ℕ → ℕ → ℚ) (i0 : ℤ) :
    ℕ → ℕ → ℕ → ℚ :=
  let r0 := npIdx nx (i0 - 1)
  let r1 := npIdx nx (i0 + 2)
  let u1 := assignSlice (npIdx nx i0)
    (fun j k => 1 * (u r1 j k - u r0 j k) / 3 + u r0 j k) u
  assignSlice (npIdx nx (i0 + 1))
    (fun j k => 2 * (u1 r1 j k - u1 r0 j k) / 3 + u1 r0 j k) u1

/-- `PressureField.interp` at state level: computes the upstream-adjusted
index from the x-axis `x1 = x[:,0,0]` and the target `turbx = coords.x1`,
then patches the two slices of `self.u`; no other attribute is
assigned. -/
def pfInterp (s : PFState) (x1 : List ℚ) (turbx : ℚ) : PFState :=
  { s with
    u := match s.u with
      | some uf => some { uf with
          val := interpPatch uf.nx uf.val (interpI0 x1 turbx) }
      | none => none }

/-! ### Closed form of the assembled operator -/

lemma foldl_applySlice (off : ℕ) (c : ℚ) (l : List ℕ) (base : ℕ → ℚ)
    (j : ℕ) :
    (l.foldl (applySlice off c) base) j
      = base j - (l.countP (fun i => decide (i - off ≤ j ∧ j < i)) : ℚ) * c := by
  induction l generalizing base with
  | nil => simp
  | cons a t ih =>
    rw [List.foldl_cons, ih, List.countP_cons]
    by_cases h : a - off ≤ j ∧ j < a
    · simp only [applySlice, decide_eq_true_eq, h, and_self, if_true]
      push_cast
      ring
    · simp only [applySlice, if_neg h, decide_eq_true_eq, h, if_false,
        Nat.add_zero]

lemma range'_eq_map (s n k : ℕ) :
    List.range' s n k = (List.range n).map (fun t => s + k * t) := by
  induction n generalizing s with
  | zero => simp
  | succ m ih =>
    rw [List.range'_succ, ih, List.range_succ_eq_map, List.map_cons,
      List.map_map]
    refine congrArg₂ List.cons (by omega) ?_
    apply List.map_congr_left
    intro t _
    simp only [Function.comp_apply, Nat.succ_eq_add_one]
    ring

lemma countP_range_of_unique (n t0 : ℕ) (p : ℕ → Bool) (C : Prop)
    [Decidable C] (hp : ∀ t, p t = true ↔ (t = t0 ∧ C)) :
    (List.range n).countP p = if t0 < n ∧ C then 1 else 0 := by
  induction n with
  | zero => simp
  | succ m ih =>
    rw [List.range_succ, List.countP_append, ih]
    have h1 : List.countP p [m] = if m = t0 ∧ C then 1 else 0 := by
      rw [List.countP_cons, List.countP_nil]
      by_cases h : m = t0 ∧ C
      · rw [if_pos ((hp m).mpr h), if_pos h]
      · rw [if_neg (fun hb => h ((hp m).mp hb)), if_neg h]
    rw [h1]
    by_cases hC : C
    · simp only [hC, and_true]
      split_ifs <;> omega
    · simp [hC]

lemma slice_pred_iff (ox nz j t : ℕ) (h1 : 0 < nz) (h2 : nz < ox) :
    (ox * (t + 1) - nz ≤ j ∧ j < ox * (t + 1))
      ↔ (t = j / ox ∧ ox - nz ≤ j % ox) := by
  have hms : ox * (t + 1) = ox * t + ox := by ring
  constructor
  · rintro ⟨hl, hu⟩
    rw [hms] at hl hu
    have hdiv : j / ox = t := by
      apply Nat.div_eq_of_lt_le
      · have hc : t * ox = ox * t := Nat.mul_comm _ _
        omega
      · have hc : (t + 1) * ox = ox * t + ox := by ring
        omega
    have hdm := Nat.div_add_mod j ox
    rw [hdiv] at hdm
    exact ⟨hdiv.symm, by omega⟩
  · rintro ⟨ht, hr⟩
    have hdm := Nat.div_add_mod j ox
    have hmlt : j % ox < ox := Nat.mod_lt _ (by omega)
    rw [← ht] at hdm
    rw [hms]
    omega

lemma offdiagy_closed (g : Grid) (hx : 1 ≤ g.Nx) (hy : 2 ≤ g.Ny)
    (hz : 1 ≤ g.Nz) (i : ℕ) (hi : i < g.N - g.Nz) :
    g.offdiagy i = if g.offx - g.Nz ≤ i % g.offx then 0 else 1/g.dy^2 := by
  have hzx : g.Nz < g.offx := by
    have : 2 * g.Nz ≤ g.Ny * g.Nz := Nat.mul_le_mul_right _ hy
    unfold Grid.offx
    omega
  have hox : 0 < g.offx := by omega
  have hN : g.N = g.Nx * g.offx := by
    unfold Grid.N Grid.offx
    ring
  unfold Grid.offdiagy Grid.loopIdxs
  rw [range'_eq_map, foldl_applySlice, List.countP_map]
  rw [countP_range_of_unique _ (i / g.offx) _ (g.offx - g.Nz ≤ i % g.offx)]
  · by_cases hc : g.offx - g.Nz ≤ i % g.offx
    · have hdm := Nat.div_add_mod i g.offx
      have hmlt : i % g.offx < g.offx := Nat.mod_lt _ hox
      have hNx2 : 2 ≤ g.Nx := by
        by_contra hq
        have h6 : g.Nx * g.offx ≤ 1 * g.offx :=
          Nat.mul_le_mul_right _ (by omega)
        omega
      have hqle : i / g.offx ≤ g.Nx - 2 := by
        by_contra hq
        have h1 : g.Nx - 1 ≤ i / g.offx := by omega
        have h2 : g.offx * (g.Nx - 1) ≤ g.offx * (i / g.offx) :=
          Nat.mul_le_mul_left _ h1
        have h3 : g.offx * (g.Nx - 1) + g.offx = g.offx * g.Nx := by
          rw [← Nat.mul_succ]
          congr 1
          omega
        have h4 : g.Nx * g.offx = g.offx * g.Nx := Nat.mul_comm _ _
        omega
      have hql : i / g.offx < (g.N - g.Nz - 1) / g.offx := by
        have hstep : (i / g.offx + 1) * g.offx ≤ g.N - g.Nz - 1 := by
          have h2 : g.offx * (i / g.offx + 1) ≤ g.offx * (g.Nx - 1) :=
            Nat.mul_le_mul_left _ (by omega)
          have h3 : g.offx * (g.Nx - 1) + g.offx = g.offx * g.Nx := by
            rw [← Nat.mul_succ]
            congr 1
            omega
          have h4 : g.Nx * g.offx = g.offx * g.Nx := Nat.mul_comm _ _
          have h5 : (i / g.offx + 1) * g.offx = g.offx * (i / g.offx + 1) :=
            Nat.mul_comm _ _
          omega
        have := (Nat.le_div_iff_mul_le hox).mpr hstep
        omega
      rw [if_pos ⟨hql, hc⟩, if_pos hc]
      push_cast
      ring
    · rw [if_neg (fun h => hc h.2), if_neg hc]
      push_cast
      ring
  · intro t
    simp only [Function.comp_apply, decide_eq_true_eq]
    have : g.offx + g.offx * t = g.offx * (t + 1) := by ring
    rw [this]
    exact slice_pred_iff g.offx g.Nz i t (by omega) hzx

lemma offdiagz_closed (g : Grid) (hz : 1 ≤ g.Nz) (i : ℕ) :
    g.offdiagz i = if i % g.Nz = g.Nz - 1 then 0 else 1/g.dz^2 := by
  unfold Grid.offdiagz
  have hiff : (g.Nz - 1 ≤ i ∧ (i - (g.Nz - 1)) % g.Nz = 0)
      ↔ i % g.Nz = g.Nz - 1 := by
    constructor
    · rintro ⟨h1, h2⟩
      have hdm := Nat.div_add_mod (i - (g.Nz - 1)) g.Nz
      rw [h2, Nat.add_zero] at hdm
      have he : i = (g.Nz - 1) + g.Nz * ((i - (g.Nz - 1)) / g.Nz) := by
        omega
      rw [he, Nat.add_mul_mod_self_left]
      exact Nat.mod_eq_of_lt (by omega)
    · intro h
      have hdm := Nat.div_add_mod i g.Nz
      rw [h] at hdm
      constructor
      · omega
      · have he : i - (g.Nz - 1) = g.Nz * (i / g.Nz) := by omega
        rw [he]
        exact Nat.mul_mod_right _ _
  by_cases h : i % g.Nz = g.Nz - 1
  · rw [if_pos (hiff.mpr h), if_pos h]
    ring
  · rw [if_neg (fun hb => h (hiff.mp hb)), if_neg h]

/-- The spacing-uniformity assertion of `__init__` can never fail on a
nonempty spacing array: the elementwise comparison's first entry,
`|d[0] - d[0]| < 1e-8`, is always true, and `np.max` of a boolean array
is true when any entry is. -/
lemma checkAxis_cons (d0 : ℚ) (rest : List ℚ) :
    checkAxis (d0 :: rest) = .ok d0 := by
  have hany : ((d0 :: rest).any fun v => decide (|v - d0| < 1/100000000))
      = true :=
    List.any_eq_true.mpr ⟨d0, List.mem_cons_self _ _, by simp⟩
  show (if ((d0 :: rest).any fun v => decide (|v - d0| < 1/100000000)) = true
      then (Except.ok d0 : Except String ℚ)
      else Except.error "AssertionError") = Except.ok d0
  rw [hany]
  simp

/-- C2: the operator assembled once at construction is the N×N
seven-banded matrix (N = Nx·Ny·Nz) with main diagonal
`-2/dx² - 2/dy² - 2/dz²` at every node and symmetric bands at offsets
±(Ny·Nz), ±Nz, ±1 holding 1/dx², 1/dy², 1/dz², except that the ±Nz band
is zero on the last Nz positions of every block of Ny·Nz entries, the ±1
band is zero at every Nz-th position, and the x band is only truncated at
its ends with no interior correction. -/
theorem C2_operator_assembly (g : Grid) (hx : 2 ≤ g.Nx) (hy : 2 ≤ g.Ny)
    (hz : 2 ≤ g.Nz) (i j : ℕ) (hi : i < g.N) (hj : j < g.N) :
    g.LHS i j = g.LHSspec i j := by
  have hzx : g.Nz < g.offx := by
    have h1 : 2 * g.Nz ≤ g.Ny * g.Nz := Nat.mul_le_mul_right _ hy
    unfold Grid.offx
    omega
  have hox : 0 < g.offx := by omega
  unfold Grid.LHS Grid.LHSspec Grid.offdiagx
  rcases Nat.lt_trichotomy i j with hlt | heq | hgt
  · rw [if_neg (by omega : ¬(i = j + g.offx ∧ i < g.N)),
      if_neg (by omega : ¬(i = j + g.Nz ∧ i < g.N)),
      if_neg (by omega : ¬(i = j + 1 ∧ i < g.N)),
      if_neg (by omega : ¬(i = j ∧ i < g.N)),
      if_neg (by omega : ¬i = j)]
    by_cases e1 : j = i + g.offx
    · rw [if_pos ⟨e1, hj⟩,
        if_neg (by omega : ¬(j = i + g.Nz ∧ j < g.N)),
        if_neg (by omega : ¬(j = i + 1 ∧ j < g.N)),
        if_pos (Or.inl e1)]
      ring
    · rw [if_neg (by omega : ¬(j = i + g.offx ∧ j < g.N)),
        if_neg (by omega : ¬(j = i + g.offx ∨ i = j + g.offx))]
      by_cases e2 : j = i + g.Nz
      · rw [if_pos ⟨e2, hj⟩,
          if_neg (by omega : ¬(j = i + 1 ∧ j < g.N)),
          if_pos (Or.inl e2),
          offdiagy_closed g (by omega) hy (by omega) i (by omega),
          Nat.min_eq_left (Nat.le_of_lt hlt)]
        ring
      · rw [if_neg (by omega : ¬(j = i + g.Nz ∧ j < g.N)),
          if_neg (by omega : ¬(j = i + g.Nz ∨ i = j + g.Nz))]
        by_cases e3 : j = i + 1
        · rw [if_pos ⟨e3, hj⟩,
            if_pos (Or.inl e3),
            offdiagz_closed g (by omega) i,
            Nat.min_eq_left (Nat.le_of_lt hlt)]
          ring
        · rw [if_neg (by omega : ¬(j = i + 1 ∧ j < g.N)),
            if_neg (by omega : ¬(j = i + 1 ∨ i = j + 1))]
          ring
  · subst heq
    rw [if_neg (by omega : ¬(i = i + g.offx ∧ i < g.N)),
      if_neg (by omega : ¬(i = i + g.Nz ∧ i < g.N)),
      if_neg (by omega : ¬(i = i + 1 ∧ i < g.N)),
      if_pos ⟨rfl, hi⟩,
      if_pos rfl]
    ring
  · rw [if_neg (by omega : ¬(j = i + g.offx ∧ j < g.N)),
      if_neg (by omega : ¬(j = i + g.Nz ∧ j < g.N)),
      if_neg (by omega : ¬(j = i + 1 ∧ j < g.N)),
      if_neg (by omega : ¬(i = j ∧ i < g.N)),
      if_neg (by omega : ¬i = j)]
    by_cases e1 : i = j + g.offx
    · rw [if_pos ⟨e1, hi⟩,
        if_neg (by omega : ¬(i = j + g.Nz ∧ i < g.N)),
        if_neg (by omega : ¬(i = j + 1 ∧ i < g.N)),
        if_pos (Or.inr e1)]
      ring
    · rw [if_neg (by omega : ¬(i = j + g.offx ∧ i < g.N)),
        if_neg (by omega : ¬(j = i + g.offx ∨ i = j + g.offx))]
      by_cases e2 : i = j + g.Nz
      · rw [if_pos ⟨e2, hi⟩,
          if_neg (by omega : ¬(i = j + 1 ∧ i < g.N)),
          if_pos (Or.inr e2),
          offdiagy_closed g (by omega) hy (by omega) j (by omega),
          Nat.min_eq_right (Nat.le_of_lt hgt)]
        ring
      · rw [if_neg (by omega : ¬(i = j + g.Nz ∧ i < g.N)),
          if_neg (by omega : ¬(j = i + g.Nz ∨ i = j + g.Nz))]
        by_cases e3 : i = j + 1
        · rw [if_pos ⟨e3, hi⟩,
            if_pos (Or.inr e3),
            offdiagz_closed g (by omega) j,
            Nat.min_eq_right (Nat.le_of_lt hgt)]
          ring
        · rw [if_neg (by omega : ¬(i = j + 1 ∧ i < g.N)),
            if_neg (by omega : ¬(j = i + 1 ∨ i = j + 1))]
          ring

lemma ravel_index (ny nz : ℕ) (f : ℕ → ℕ → ℕ → ℚ) (i j k : ℕ)
    (hj : j < ny) (hk : k < nz) :
    ravel ny nz f (i * (ny * nz) + j * nz + k) = f i j k := by
  have hnz : 0 < nz := by omega
  have hny : 0 < ny := by omega
  have h1 : (i * (ny * nz) + j * nz + k) % nz = k := by
    have e : i * (ny * nz) + j * nz + k = k + (i * ny + j) * nz := by ring
    rw [e, Nat.add_mul_mod_self_right, Nat.mod_eq_of_lt hk]
  have h2 : (i * (ny * nz) + j * nz + k) / nz = i * ny + j := by
    have e : i * (ny * nz) + j * nz + k = k + nz * (i * ny + j) := by ring
    rw [e, Nat.add_mul_div_left _ _ hnz, Nat.div_eq_of_lt hk, Nat.zero_add]
  have h3 : (i * ny + j) % ny = j := by
    have e : i * ny + j = j + i * ny := by ring
    rw [e, Nat.add_mul_mod_self_right, Nat.mod_eq_of_lt hj]
  have h4 : (i * (ny * nz) + j * nz + k) / (ny * nz) = i := by
    have hlt : j * nz + k < ny * nz := by
      have hle : (j + 1) * nz ≤ ny * nz := Nat.mul_le_mul_right _ (by omega)
      have he : (j + 1) * nz = j * nz + nz := by ring
      omega
    have e : i * (ny * nz) + j * nz + k = (j * nz + k) + (ny * nz) * i := by
      ring
    rw [e, Nat.add_mul_div_left _ _ (by positivity), Nat.div_eq_of_lt hlt,
      Nat.zero_add]
  unfold ravel
  rw [h1, h2, h3, h4]

/-- C1 (code bug in the source): the spacing validation of `__init__`
cannot reject any grid — `np.max(np.abs(dx - dx[0]) < 1e-8)` reduces a
*boolean* array, which is true as soon as one deviation is small, and the
deviation of the first spacing from itself is always `0`.  At the
spec's own failing input (a 10% spacing jump on the x axis) construction
succeeds, although the spec-mandated uniformity predicate is false
there. -/
theorem C1_construction_accepts_irregular_grid :
    (pfInit [0, 10, 21] [0, 1, 2] [0, 1, 2]).isOk = true
      ∧ uniformSpacingSpec (npDiff [0, 10, 21]) = false := by
  have hx1 : npDiff [0, 10, 21] = [10, 11] := by
    norm_num [npDiff]
  have hy1 : npDiff [0, 1, 2] = [1, 1] := by
    norm_num [npDiff]
  constructor
  · unfold pfInit
    rw [hx1, hy1, checkAxis_cons, checkAxis_cons]
    rfl
  · rw [hx1]
    have habs : |(11:ℚ) - 10| = 1 := by
      rw [show (11:ℚ) - 10 = 1 by norm_num, abs_one]
    simp only [uniformSpacingSpec, List.headD, List.all_cons, List.all_nil,
      habs]
    norm_num

/-- Witness for C2 at a concrete 2×2×2 unit-spacing grid and a concrete
matrix entry. -/
theorem C2_operator_assembly_witness :
    (2 ≤ (2:ℕ))
      ∧ (1 : ℕ) < Grid.N ⟨2, 2, 2, 1, 1, 1⟩
      ∧ Grid.LHS ⟨2, 2, 2, 1, 1, 1⟩ 1 2 = Grid.LHSspec ⟨2, 2, 2, 1, 1, 1⟩ 1 2 :=
  ⟨le_refl 2, by decide,
    C2_operator_assembly ⟨2, 2, 2, 1, 1, 1⟩ (le_refl 2) (le_refl 2)
      (le_refl 2) 1 2 (by decide) (by decide)⟩

/-- The field correction as claim C3 words it: the gradient correction
applied only at nodes `2..N-3` inclusive along the axis, all other nodes
copied from the predictor. -/
def correctU_claim (nx : ℕ) (dx A : ℚ) (p u0 : ℕ → ℕ → ℕ → ℚ) :
    ℕ → ℕ → ℕ → ℚ :=
  fun i j k =>
    if 2 ≤ i ∧ i ≤ nx - 3 then
      u0 i j k - A * ((p (i + 1) j k - p (i - 1) j k) / (2 * dx))
    else u0 i j k

/-- A concrete pressure field used to separate the code's correction
range from the claimed one. -/
def pC3 : ℕ → ℕ → ℕ → ℚ := fun i _ _ => if i = 2 then 1 else 0

/-- C3 is false as stated: on a 4-node axis the code corrects node 1
(range 1..N-2), while the claimed characterization (correction only at
2..N-3, every other node copied) leaves node 1 at the predictor value. -/
theorem C3_counterexample :
    correctU 4 1 1 pC3 (fun _ _ _ => 0) 1 0 0 = -(1/2)
      ∧ correctU_claim 4 1 1 pC3 (fun _ _ _ => 0) 1 0 0 = 0 := by
  constructor
  · norm_num [correctU, pC3]
  · norm_num [correctU_claim]

/-- C3 (amended): each corrected component equals the predictor minus
`A` times the central-difference pressure gradient at interior nodes
`1..N-2` inclusive along its axis, and the boundary-layer nodes (first
and last along the axis) exactly equal the predictor. -/
theorem C3_correction_interior_and_boundary
    (nx ny nz : ℕ) (hx : 2 ≤ nx) (hy : 2 ≤ ny) (hz : 2 ≤ nz)
    (dx dy dz A : ℚ) (p u0 v0 w0 : ℕ → ℕ → ℕ → ℚ) (i j k : ℕ) :
    (1 ≤ i → i ≤ nx - 2 →
      correctU nx dx A p u0 i j k
        = u0 i j k - A * ((p (i + 1) j k - p (i - 1) j k) / (2 * dx)))
    ∧ (i = 0 ∨ i = nx - 1 → correctU nx dx A p u0 i j k = u0 i j k)
    ∧ (1 ≤ j → j ≤ ny - 2 →
      correctV ny dy A p v0 i j k
        = v0 i j k - A * ((p i (j + 1) k - p i (j - 1) k) / (2 * dy)))
    ∧ (j = 0 ∨ j = ny - 1 → correctV ny dy A p v0 i j k = v0 i j k)
    ∧ (1 ≤ k → k ≤ nz - 2 →
      correctW nz dz A p w0 i j k
        = w0 i j k - A * ((p i j (k + 1) - p i j (k - 1)) / (2 * dz)))
    ∧ (k = 0 ∨ k = nz - 1 → correctW nz dz A p w0 i j k = w0 i j k) := by
  refine ⟨fun h1 h2 => ?_, fun h => ?_, fun h1 h2 => ?_, fun h => ?_,
    fun h1 h2 => ?_, fun h => ?_⟩
  · unfold correctU
    rw [if_pos (by omega)]
  · unfold correctU
    rw [if_neg (by omega)]
  · unfold correctV
    rw [if_pos (by omega)]
  · unfold correctV
    rw [if_neg (by omega)]
  · unfold correctW
    rw [if_pos (by omega)]
  · unfold correctW
    rw [if_neg (by omega)]

/-- Witness for the amended C3 at a concrete 4×4×4 grid and node
(1,1,1). -/
theorem C3_correction_witness :
    (2 ≤ (4:ℕ))
      ∧ ((1 ≤ (1:ℕ) → (1:ℕ) ≤ 4 - 2 →
          correctU 4 1 1 pC3 (fun _ _ _ => 0) 1 1 1
            = (fun _ _ _ => (0:ℚ)) 1 1 1
              - 1 * ((pC3 2 1 1 - pC3 0 1 1) / (2 * 1)))
        ∧ ((1:ℕ) = 0 ∨ (1:ℕ) = 4 - 1 →
          correctU 4 1 1 pC3 (fun _ _ _ => 0) 1 1 1
            = (fun _ _ _ => (0:ℚ)) 1 1 1)
        ∧ (1 ≤ (1:ℕ) → (1:ℕ) ≤ 4 - 2 →
          correctV 4 1 1 pC3 (fun _ _ _ => 0) 1 1 1
            = (fun _ _ _ => (0:ℚ)) 1 1 1
              - 1 * ((pC3 1 2 1 - pC3 1 0 1) / (2 * 1)))
        ∧ ((1:ℕ) = 0 ∨ (1:ℕ) = 4 - 1 →
          correctV 4 1 1 pC3 (fun _ _ _ => 0) 1 1 1
            = (fun _ _ _ => (0:ℚ)) 1 1 1)
        ∧ (1 ≤ (1:ℕ) → (1:ℕ) ≤ 4 - 2 →
          correctW 4 1 1 pC3 (fun _ _ _ => 0) 1 1 1
            = (fun _ _ _ => (0:ℚ)) 1 1 1
              - 1 * ((pC3 1 1 2 - pC3 1 1 0) / (2 * 1)))
        ∧ ((1:ℕ) = 0 ∨ (1:ℕ) = 4 - 1 →
          correctW 4 1 1 pC3 (fun _ _ _ => 0) 1 1 1
            = (fun _ _ _ => (0:ℚ)) 1 1 1)) :=
  ⟨by norm_num,
    C3_correction_interior_and_boundary 4 4 4 (by norm_num) (by norm_num)
      (by norm_num) 1 1 1 1 pC3 (fun _ _ _ => 0) (fun _ _ _ => 0)
      (fun _ _ _ => 0) 1 1 1⟩

/-- C4: for every predictor, the right-hand side passed to the linear
solver is the flattened (row-major, z fastest) sum of the three
directional finite-difference divergence terms — central differences
`(f[i+1]-f[i-1])/(2Δ)` at interior indices, one-sided `(f[1]-f[0])/Δ`
and `(f[N-1]-f[N-2])/Δ` at the first and last nodes — divided by `A`. -/
theorem C4_divergence_rhs (nx ny nz : ℕ) (dx dy dz A : ℚ)
    (u v w : ℕ → ℕ → ℕ → ℚ) (i j k : ℕ)
    (hi : i < nx) (hj : j < ny) (hk : k < nz) :
    updateRHSvec nx ny nz dx dy dz u v w (i * (ny * nz) + j * nz + k) / A
      = ((if i = 0 then (u 1 j k - u 0 j k) / dx
          else if i = nx - 1 then (u (nx - 1) j k - u (nx - 2) j k) / dx
          else (u (i + 1) j k - u (i - 1) j k) / (2 * dx))
        + (if j = 0 then (v i 1 k - v i 0 k) / dy
          else if j = ny - 1 then (v i (ny - 1) k - v i (ny - 2) k) / dy
          else (v i (j + 1) k - v i (j - 1) k) / (2 * dy))
        + (if k = 0 then (w i j 1 - w i j 0) / dz
          else if k = nz - 1 then (w i j (nz - 1) - w i j (nz - 2)) / dz
          else (w i j (k + 1) - w i j (k - 1)) / (2 * dz))) / A := by
  unfold updateRHSvec
  rw [ravel_index _ _ _ _ _ _ hj hk]
  rfl

/-- Witness for C4 on a concrete 3×3×3 grid at node (1,1,1) with a
concrete predictor. -/
theorem C4_divergence_rhs_witness :
    ((1:ℕ) < 3)
      ∧ updateRHSvec 3 3 3 1 1 1 (fun a b c => (a : ℚ) * (b + c))
          (fun a b c => (b : ℚ) * (a + c)) (fun a b c => (c : ℚ) * (a + b))
          (1 * (3 * 3) + 1 * 3 + 1) / 2
        = ((if (1:ℕ) = 0 then 0 else if (1:ℕ) = 3 - 1 then 0
            else (((2:ℚ) * (1 + 1)) - ((0:ℚ) * (1 + 1))) / (2 * 1))
          + (if (1:ℕ) = 0 then 0 else if (1:ℕ) = 3 - 1 then 0
            else (((2:ℚ) * (1 + 1)) - ((0:ℚ) * (1 + 1))) / (2 * 1))
          + (if (1:ℕ) = 0 then 0 else if (1:ℕ) = 3 - 1 then 0
            else (((2:ℚ) * (1 + 1)) - ((0:ℚ) * (1 + 1))) / (2 * 1))) / 2 := by
  have h := C4_divergence_rhs 3 3 3 1 1 1 2
    (fun a b c => (a : ℚ) * (b + c)) (fun a b c => (b : ℚ) * (a + c))
    (fun a b c => (c : ℚ) * (a + b)) 1 1 1
    (by norm_num) (by norm_num) (by norm_num)
  refine ⟨by norm_num, ?_⟩
  rw [h]
  norm_num

/-! ### Shape handling of `solve` (C5) -/

/-- Shape of a velocity field. -/
def fieldShape (f : Field3) : ℕ × ℕ × ℕ := (f.nx, f.ny, f.nz)

/-- Shape of the grid. -/
def gridShape (g : Grid) : ℕ × ℕ × ℕ := (g.Nx, g.Ny, g.Nz)

/-- A concrete constructed instance over a 2×2×2 unit-spacing grid. -/
def gridEx : Grid := ⟨2, 2, 2, 1, 1, 1⟩

/-- Fresh `PressureField` state for `gridEx` (as `__init__` leaves it:
operator assembled, `RHS = None`, no solve-produced attributes). -/
def stateEx : PFState :=
  ⟨gridEx, gridEx.LHS, none, none, none, none, none, none, none, none⟩

/-- A velocity field whose shape (3,2,2) does not match `gridEx`. -/
def uMismatch : Field3 := ⟨3, 2, 2, fun i _ _ => (i : ℚ) * i⟩

/-- C5 is false as stated: a predictor whose shape disagrees with the
grid is not rejected before computation — the gradient/RHS phase of
`solve` completes on it (there is no precondition check in the source). -/
theorem C5_counterexample :
    fieldShape uMismatch ≠ gridShape stateEx.g
      ∧ (pfSolvePre stateEx uMismatch).isOk = true := by
  constructor
  · decide
  · rfl

/-- C5 (amended): `solve` performs no shape validation at all — even for
an input whose shape disagrees with the grid, the pre-solver phase
succeeds, storing the predictor and the divergence/RHS computed with the
supplied field's own shape; a mismatch can surface only downstream at the
linear-solve stage. -/
theorem C5_no_shape_precondition (s : PFState) (u_wake : Field3)
    (hne : fieldShape u_wake ≠ gridShape s.g) :
    pfSolvePre s u_wake = .ok { s with
      u0 := some u_wake,
      v0 := some (zerosLike u_wake),
      w0 := some (zerosLike u_wake),
      RHS := some (updateRHSvec u_wake.nx u_wake.ny u_wake.nz
        s.g.dx s.g.dy s.g.dz u_wake.val (zerosLike u_wake).val
        (zerosLike u_wake).val) } := rfl

/-- Witness for the amended C5: a concrete (2,3,2)-shaped field against
the 2×2×2 grid. -/
theorem C5_no_shape_precondition_witness :
    fieldShape ⟨2, 3, 2, fun _ _ _ => 5⟩ ≠ gridShape stateEx.g
      ∧ pfSolvePre stateEx ⟨2, 3, 2, fun _ _ _ => 5⟩ = .ok { stateEx with
          u0 := some ⟨2, 3, 2, fun _ _ _ => 5⟩,
          v0 := some (zerosLike ⟨2, 3, 2, fun _ _ _ => 5⟩),
          w0 := some (zerosLike ⟨2, 3, 2, fun _ _ _ => 5⟩),
          RHS := some (updateRHSvec 2 3 2 stateEx.g.dx stateEx.g.dy
            stateEx.g.dz (fun _ _ _ => 5)
            (zerosLike ⟨2, 3, 2, fun _ _ _ => 5⟩).val
            (zerosLike ⟨2, 3, 2, fun _ _ _ => 5⟩).val) } :=
  ⟨by decide,
    C5_no_shape_precondition stateEx ⟨2, 3, 2, fun _ _ _ => 5⟩ (by decide)⟩

/-! ### Zero predictor (C6) -/

lemma updateRHSvec_zero (nx ny nz : ℕ) (dx dy dz : ℚ) (n : ℕ) :
    updateRHSvec nx ny nz dx dy dz (fun _ _ _ => 0) (fun _ _ _ => 0)
      (fun _ _ _ => 0) n = 0 := by
  unfold updateRHSvec ravel divergenceField du_dx dv_dy dw_dz
  split_ifs <;> norm_num

lemma matVec_zero (n : ℕ) (M : ℕ → ℕ → ℚ) (i : ℕ) :
    matVec n M (fun _ => 0) i = 0 := by
  unfold matVec
  exact Finset.sum_eq_zero (fun j _ => mul_zero _)

/-- C6: solving with an identically zero predictor yields an identically
zero pressure field and corrected fields equal to the (zero) predictor:
the RHS is zero, the CG model converges at the zero initial guess, and
the correction leaves the zero fields unchanged. -/
theorem C6_zero_predictor (s : PFState) (nx ny nz : ℕ) (A tol : ℚ) :
    ∃ s3, pfSolve s ⟨nx, ny, nz, fun _ _ _ => 0⟩ A tol = Except.ok s3
      ∧ s3.p = some ⟨nx, ny, nz, fun _ _ _ => 0⟩
      ∧ s3.u0 = some ⟨nx, ny, nz, fun _ _ _ => 0⟩
      ∧ s3.v0 = s3.u0 ∧ s3.w0 = s3.u0
      ∧ s3.u = s3.u0 ∧ s3.v = s3.v0 ∧ s3.w = s3.w0 := by
  have hb : ∀ i, updateRHSvec nx ny nz s.g.dx s.g.dy s.g.dz
      (fun _ _ _ => 0) (fun _ _ _ => 0) (fun _ _ _ => 0) i / A = 0 := by
    intro i
    rw [updateRHSvec_zero]
    exact zero_div A
  have hconv : cgConverged s.g.N s.lhs
      (fun i => updateRHSvec nx ny nz s.g.dx s.g.dy s.g.dz
        (fun _ _ _ => 0) (fun _ _ _ => 0) (fun _ _ _ => 0) i / A)
      (fun _ => 0) tol tol = true := by
    unfold cgConverged
    apply decide_eq_true
    have h1 : normSq s.g.N
        (fun i => (updateRHSvec nx ny nz s.g.dx s.g.dy s.g.dz
          (fun _ _ _ => 0) (fun _ _ _ => 0) (fun _ _ _ => 0) i / A)
          - matVec s.g.N s.lhs (fun _ => 0) i) = 0 := by
      unfold normSq dotv
      refine Finset.sum_eq_zero (fun x _ => ?_)
      simp only [hb, matVec_zero]
      ring
    rw [h1]
    exact le_max_of_le_right (sq_nonneg tol)
  have hcg : cg s.g.N s.lhs
      (fun i => updateRHSvec nx ny nz s.g.dx s.g.dy s.g.dz
        (fun _ _ _ => 0) (fun _ _ _ => 0) (fun _ _ _ => 0) i / A)
      (fun _ => 0) tol tol (10 * s.g.N) = (fun _ => 0, 0) := by
    unfold cg
    rw [hconv]
    simp
  have hcorrU : correctU nx s.g.dx A
      (reshape3 ny nz (fun _ => 0)) (fun _ _ _ => 0)
        = fun _ _ _ => (0:ℚ) := by
    funext i j k
    unfold correctU reshape3
    split_ifs <;> ring
  have hcorrV : correctV ny s.g.dy A
      (reshape3 ny nz (fun _ => 0)) (fun _ _ _ => 0)
        = fun _ _ _ => (0:ℚ) := by
    funext i j k
    unfold correctV reshape3
    split_ifs <;> ring
  have hcorrW : correctW nz s.g.dz A
      (reshape3 ny nz (fun _ => 0)) (fun _ _ _ => 0)
        = fun _ _ _ => (0:ℚ) := by
    funext i j k
    unfold correctW reshape3
    split_ifs <;> ring
  have hre : reshape3 ny nz (fun _ => (0:ℚ)) = (fun _ _ _ => (0:ℚ)) := by
    funext i j k
    rfl
  refine ⟨{ s with
      u0 := some ⟨nx, ny, nz, fun _ _ _ => 0⟩,
      v0 := some ⟨nx, ny, nz, fun _ _ _ => 0⟩,
      w0 := some ⟨nx, ny, nz, fun _ _ _ => 0⟩,
      RHS := some (updateRHSvec nx ny nz s.g.dx s.g.dy s.g.dz
        (fun _ _ _ => 0) (fun _ _ _ => 0) (fun _ _ _ => 0)),
      p := some ⟨nx, ny, nz, fun _ _ _ => 0⟩,
      u := some ⟨nx, ny, nz, fun _ _ _ => 0⟩,
      v := some ⟨nx, ny, nz, fun _ _ _ => 0⟩,
      w := some ⟨nx, ny, nz, fun _ _ _ => 0⟩ },
    ?_, rfl, rfl, rfl, rfl, rfl, rfl, rfl⟩
  calc pfSolve s ⟨nx, ny, nz, fun _ _ _ => 0⟩ A tol
      = pfSolvePost { s with
          u0 := some ⟨nx, ny, nz, fun _ _ _ => 0⟩,
          v0 := some (zerosLike ⟨nx, ny, nz, fun _ _ _ => 0⟩),
          w0 := some (zerosLike ⟨nx, ny, nz, fun _ _ _ => 0⟩),
          RHS := some (updateRHSvec nx ny nz s.g.dx s.g.dy s.g.dz
            (fun _ _ _ => 0) (fun _ _ _ => 0) (fun _ _ _ => 0)) } A tol :=
      rfl
    _ = _ := by
      simp only [pfSolvePost, zerosLike]
      rw [hcg]
      simp only [Prod.snd, Prod.fst, if_pos]
      rw [hcorrU, hcorrV, hcorrW, hre]

/-! ### Divergence query (C8, C9) -/

/-- C8: `div` is a pure read — it assigns no instance attribute (the
state component of the result is the input state itself, so `RHS`, `p`,
the predictor and corrected fields and the operator are all unchanged),
and calling it again on that state with the same flag returns an
identical result. -/
theorem C8_div_pure_read (s : PFState) (c : Bool) :
    (pfDiv s c).1 = s ∧ pfDiv ((pfDiv s c).1) c = pfDiv s c :=
  ⟨rfl, rfl⟩

/-- C9: on a freshly constructed instance (`__init__` sets
`self.RHS = None` and no solve has run) the uncorrected divergence query
fails with an attribute error instead of returning a field. -/
theorem C9_div_before_solve (x1 y1 z1 : List ℚ) (s : PFState)
    (h : pfInit x1 y1 z1 = Except.ok s) :
    (pfDiv s false).2
      = Except.error
          "AttributeError: NoneType object has no attribute reshape" := by
  unfold pfInit at h
  cases hdx : checkAxis (npDiff x1) with
  | error e =>
    rw [hdx] at h
    simp at h
  | ok dx =>
    rw [hdx] at h
    cases hdy : checkAxis (npDiff y1) with
    | error e =>
      rw [hdy] at h
      simp at h
    | ok dy =>
      rw [hdy] at h
      cases hdz : checkAxis (npDiff z1) with
      | error e =>
        rw [hdz] at h
        simp at h
      | ok dz =>
        rw [hdz] at h
        injection h with h2
        rw [← h2]
        rfl

/-- State produced by construction on the 2-point unit axes, used to
witness C9. -/
def stateW : PFState :=
  ⟨⟨2, 2, 2, 1 - 0, 1 - 0, 1 - 0⟩,
    Grid.LHS ⟨2, 2, 2, 1 - 0, 1 - 0, 1 - 0⟩,
    none, none, none, none, none, none, none, none⟩

/-- Witness for C9: construct on concrete axes `[0,1]` and query. -/
theorem C9_div_before_solve_witness :
    pfInit [0, 1] [0, 1] [0, 1] = Except.ok stateW
      ∧ (pfDiv stateW false).2
        = Except.error
            "AttributeError: NoneType object has no attribute reshape" := by
  have hinit : pfInit [(0:ℚ), 1] [0, 1] [0, 1] = Except.ok stateW := by
    have hd : npDiff [(0:ℚ), 1] = [1 - 0] := rfl
    unfold pfInit
    rw [hd, checkAxis_cons]
    rfl
  exact ⟨hinit, C9_div_before_solve [0, 1] [0, 1] [0, 1] stateW hinit⟩

/-! ### Local smoothing (C7, C10) -/

lemma npIdx_nonneg (n : ℕ) (i : ℤ) (h : 0 ≤ i) : npIdx n i = i.toNat := by
  unfold npIdx
  rw [if_neg (by omega)]

lemma interpPatch_no_wrap (n : ℕ) (u : ℕ → ℕ → ℕ → ℚ) (i0 : ℤ)
    (hlo : 1 ≤ i0) (hhi : i0 + 2 ≤ (n : ℤ) - 1) (i j k : ℕ) :
    interpPatch n u i0 i j k =
      if (i : ℤ) = i0 then
        u (i0 - 1).toNat j k
          + (u (i0 + 2).toNat j k - u (i0 - 1).toNat j k) / 3
      else if (i : ℤ) = i0 + 1 then
        u (i0 - 1).toNat j k
          + 2 * (u (i0 + 2).toNat j k - u (i0 - 1).toNat j k) / 3
      else u i j k := by
  simp only [interpPatch, assignSlice]
  rw [npIdx_nonneg n (i0 - 1) (by omega), npIdx_nonneg n i0 (by omega),
    npIdx_nonneg n (i0 + 1) (by omega), npIdx_nonneg n (i0 + 2) (by omega)]
  by_cases h1 : (i : ℤ) = i0
  · rw [if_neg (by omega : ¬ i = (i0 + 1).toNat),
      if_pos (by omega : i = i0.toNat), if_pos h1]
    ring
  · by_cases h2 : (i : ℤ) = i0 + 1
    · rw [if_pos (by omega : i = (i0 + 1).toNat),
        if_neg (by omega : ¬ (i0 + 2).toNat = i0.toNat),
        if_neg (by omega : ¬ (i0 - 1).toNat = i0.toNat),
        if_neg h1, if_pos h2]
      ring
    · rw [if_neg (by omega : ¬ i = (i0 + 1).toNat),
        if_neg (by omega : ¬ i = i0.toNat), if_neg h1, if_neg h2]

/-- C7: the optional smoothing with an upstream-adjusted index `i0` in
the interior overwrites exactly the two x-slices `i0` and `i0+1` of the
u-field with `f0 + (f1-f0)/3` and `f0 + 2(f1-f0)/3` built from the
bracketing slices `f0 = u[i0-1]`, `f1 = u[i0+2]`, and leaves `v`, `w`,
`p`, the cached RHS, the predictor and every other x-slice of `u`
unchanged. -/
theorem C7_interp_smoothing (s : PFState) (x1 : List ℚ) (turbx : ℚ)
    (uf : Field3) (hu : s.u = some uf) (i0 : ℤ)
    (hi0 : interpI0 x1 turbx = i0) (hlo : 1 ≤ i0)
    (hhi : i0 + 2 ≤ (uf.nx : ℤ) - 1) :
    (pfInterp s x1 turbx).v = s.v ∧ (pfInterp s x1 turbx).w = s.w
      ∧ (pfInterp s x1 turbx).p = s.p
      ∧ (pfInterp s x1 turbx).RHS = s.RHS
      ∧ (pfInterp s x1 turbx).u0 = s.u0
      ∧ ∃ uf2, (pfInterp s x1 turbx).u = some uf2
          ∧ uf2.nx = uf.nx ∧ uf2.ny = uf.ny ∧ uf2.nz = uf.nz
          ∧ ∀ i j k, uf2.val i j k =
              if (i : ℤ) = i0 then
                uf.val (i0 - 1).toNat j k
                  + (uf.val (i0 + 2).toNat j k
                      - uf.val (i0 - 1).toNat j k) / 3
              else if (i : ℤ) = i0 + 1 then
                uf.val (i0 - 1).toNat j k
                  + 2 * (uf.val (i0 + 2).toNat j k
                      - uf.val (i0 - 1).toNat j k) / 3
              else uf.val i j k := by
  refine ⟨rfl, rfl, rfl, rfl, rfl,
    ⟨{ uf with val := interpPatch uf.nx uf.val (interpI0 x1 turbx) },
      ?_, rfl, rfl, rfl, ?_⟩⟩
  · unfold pfInterp
    rw [hu]
  · intro i j k
    show interpPatch uf.nx uf.val (interpI0 x1 turbx) i j k = _
    rw [hi0]
    exact interpPatch_no_wrap uf.nx uf.val i0 hlo hhi i j k

/-- Velocity field used to witness the interp claims: 6 x-slices, value
equal to the x index. -/
def ufC7 : Field3 := ⟨6, 1, 1, fun i _ _ => (i : ℚ)⟩

/-- A solved-looking state carrying `ufC7` as corrected u-field. -/
def stateC7 : PFState := { stateEx with u := some ufC7 }

/-- Witness for C7: target `x = 5/2` on the axis `[0..5]` selects
`i0 = 2`; the patch hypotheses hold and the conclusion follows. -/
theorem C7_interp_smoothing_witness :
    (pfInterp stateC7 [0, 1, 2, 3, 4, 5] (5/2)).v = stateC7.v
      ∧ (pfInterp stateC7 [0, 1, 2, 3, 4, 5] (5/2)).w = stateC7.w
      ∧ (pfInterp stateC7 [0, 1, 2, 3, 4, 5] (5/2)).p = stateC7.p
      ∧ (pfInterp stateC7 [0, 1, 2, 3, 4, 5] (5/2)).RHS = stateC7.RHS
      ∧ (pfInterp stateC7 [0, 1, 2, 3, 4, 5] (5/2)).u0 = stateC7.u0
      ∧ ∃ uf2, (pfInterp stateC7 [0, 1, 2, 3, 4, 5] (5/2)).u = some uf2
          ∧ uf2.nx = ufC7.nx ∧ uf2.ny = ufC7.ny ∧ uf2.nz = ufC7.nz
          ∧ ∀ i j k, uf2.val i j k =
              if (i : ℤ) = 2 then
                ufC7.val ((2:ℤ) - 1).toNat j k
                  + (ufC7.val ((2:ℤ) + 2).toNat j k
                      - ufC7.val ((2:ℤ) - 1).toNat j k) / 3
              else if (i : ℤ) = 2 + 1 then
                ufC7.val ((2:ℤ) - 1).toNat j k
                  + 2 * (ufC7.val ((2:ℤ) + 2).toNat j k
                      - ufC7.val ((2:ℤ) - 1).toNat j k) / 3
              else ufC7.val i j k := by
  have hi0 : interpI0 [0, 1, 2, 3, 4, 5] (5/2) = 2 := by
    have hmap : ([(0:ℚ), 1, 2, 3, 4, 5].map (fun v => |5/2 - v|))
        = [5/2, 3/2, 1/2, 1/2, 3/2, 5/2] := by norm_num
    unfold interpI0
    rw [hmap]
    norm_num [argmin, argminGo]
  exact C7_interp_smoothing stateC7 [0, 1, 2, 3, 4, 5] (5/2) ufC7 rfl 2
    hi0 (by norm_num) (by norm_num [ufC7])

lemma interpPatch_wrap_zero (n : ℕ) (u : ℕ → ℕ → ℕ → ℚ) (hn : 4 ≤ n)
    (j k : ℕ) :
    interpPatch n u 0 0 j k
        = u (n - 1) j k + (u 2 j k - u (n - 1) j k) / 3
      ∧ interpPatch n u 0 1 j k
        = u (n - 1) j k + 2 * (u 2 j k - u (n - 1) j k) / 3 := by
  have h0 : npIdx n ((0:ℤ) - 1) = n - 1 := by
    unfold npIdx
    rw [if_pos (by omega)]
    omega
  have h1 : npIdx n ((0:ℤ) + 2) = 2 := by
    rw [npIdx_nonneg n _ (by omega)]
    rfl
  have h2 : npIdx n (0:ℤ) = 0 := by
    rw [npIdx_nonneg n _ (by omega)]
    rfl
  have h3 : npIdx n ((0:ℤ) + 1) = 1 := by
    rw [npIdx_nonneg n _ (by omega)]
    rfl
  constructor
  · simp only [interpPatch, assignSlice, h0, h1, h2, h3, if_true]
    rw [if_neg (by omega : ¬ (0:ℕ) = 1)]
    ring
  · simp only [interpPatch, assignSlice, h0, h1, h2, h3, if_true]
    rw [if_neg (by omega : ¬ (2:ℕ) = 0), if_neg (by omega : ¬ n - 1 = 0)]
    ring

/-- C10: `interp` performs no bounds check — when the upstream-adjusted
index is `0`, the slice read at `i0-1 = -1` wraps via numpy negative
indexing to the *last* x-slice, so the two patched slices silently blend
outlet-boundary data instead of raising an error. -/
theorem C10_interp_no_bounds_check (s : PFState) (x1 : List ℚ)
    (turbx : ℚ) (uf : Field3) (hu : s.u = some uf) (hnx : 4 ≤ uf.nx)
    (h0 : interpI0 x1 turbx = 0) :
    ∃ uf2, (pfInterp s x1 turbx).u = some uf2
      ∧ ∀ j k,
          uf2.val 0 j k
            = uf.val (uf.nx - 1) j k
              + (uf.val 2 j k - uf.val (uf.nx - 1) j k) / 3
          ∧ uf2.val 1 j k
            = uf.val (uf.nx - 1) j k
              + 2 * (uf.val 2 j k - uf.val (uf.nx - 1) j k) / 3 := by
  refine ⟨{ uf with val := interpPatch uf.nx uf.val (interpI0 x1 turbx) },
    ?_, ?_⟩
  · unfold pfInterp
    rw [hu]
  · intro j k
    show interpPatch uf.nx uf.val (interpI0 x1 turbx) 0 j k = _
      ∧ interpPatch uf.nx uf.val (interpI0 x1 turbx) 1 j k = _
    rw [h0]
    exact interpPatch_wrap_zero uf.nx uf.val hnx j k

/-- Velocity field used to witness C10: 4 x-slices, value equal to the
x index. -/
def ufC10 : Field3 := ⟨4, 1, 1, fun i _ _ => (i : ℚ)⟩

/-- A solved-looking state carrying `ufC10` as corrected u-field. -/
def stateC10 : PFState := { stateEx with u := some ufC10 }

/-- Witness for C10: target `x = 2/5` on the axis `[0,1,2,3]` gives the
unadjusted nearest node `0`, which stays `0`; the patched slice 0 blends
the last slice. -/
theorem C10_interp_no_bounds_check_witness :
    ∃ uf2, (pfInterp stateC10 [0, 1, 2, 3] (2/5)).u = some uf2
      ∧ ∀ j k,
          uf2.val 0 j k
            = ufC10.val (ufC10.nx - 1) j k
              + (ufC10.val 2 j k - ufC10.val (ufC10.nx - 1) j k) / 3
          ∧ uf2.val 1 j k
            = ufC10.val (ufC10.nx - 1) j k
              + 2 * (ufC10.val 2 j k - ufC10.val (ufC10.nx - 1) j k) / 3 := by
  have hi0 : interpI0 [0, 1, 2, 3] (2/5) = 0 := by
    have hmap : ([(0:ℚ), 1, 2, 3].map (fun v => |2/5 - v|))
        = [2/5, 3/5, 8/5, 13/5] := by norm_num
    unfold interpI0
    rw [hmap]
    norm_num [argmin, argminGo]
  exact C10_interp_no_bounds_check stateC10 [0, 1, 2, 3] (2/5) ufC10 rfl
    (by norm_num [ufC10]) hi0

end PressureProjection
